import Mathlib

/-!
# Verification of the ncatbot event-dispatch and plugin-lifecycle kernel

Shallow embedding of the core components of the ncatbot repository:

* `EventBus` (`ncatbot/core/client/event_bus.py`): subscription storage,
  handler collection (exact / dotted-prefix / regex), priority sorting and
  the sequential publish loop with exception isolation.
* `EventParser` (`ncatbot/core/event/parser.py`) and the id-normalising
  field validators of `ncatbot/core/event/events.py`.
* `ServiceManager` (`ncatbot/core/service/manager.py`).
* `_ModuleImporter.load_plugin_module` (`ncatbot/plugin_system/loader/importer.py`).
* `FileWatcherService` (`ncatbot/core/service/builtin/file_watcher/service.py`).
* `PluginConfigService.set` (`ncatbot/core/service/builtin/plugin_config_service.py`).

Python strings are modelled as `List Char` (Python compares strings
lexicographically by code point, which coincides with the lexicographic
order on `List Char`).  Python dicts are modelled as insertion-ordered
association lists.  Machine-level details (asyncio scheduling, wall-clock
time) are abstracted into explicit parameters.

The file is organised as definitions first, then theorems.
-/

namespace Ncatbot

/-! ## Definitions -/

/-- Python strings, modelled as lists of characters. -/
abbrev PyStr := List Char

/-- String literal helper: the character list of a `String`. -/
def pyS (s : String) : PyStr := s.data

/-- Python's `s.split(".")`: splits on every dot without collapsing;
`"".split(".") == [""]`, so the result is always non-empty. -/
def splitOnDot : PyStr → List PyStr
  | [] => [[]]
  | c :: rest =>
    let r := splitOnDot rest
    if c = '.' then [] :: r
    else (c :: r.headD []) :: r.tail

/-- Python's `".".join(parts)`. -/
def joinDots : List PyStr → PyStr
  | [] => []
  | [p] => p
  | p :: q :: ps => p ++ '.' :: joinDots (q :: ps)

/-! ### Event bus (`ncatbot/core/client/event_bus.py`)

`EventBus` stores subscriptions in `_exact : Dict[str, List[Tuple]]` and
`_regex : List[Tuple]`; each stored tuple is
`(pattern, priority, handler, hid, timeout)` with `pattern = None` for
exact subscriptions.  Compiled regexes are abstracted to an opaque type
`P` together with a match predicate (the bus only calls `pattern.match`),
and the handler payload to a type `H` (the bus reads `handler.__name__`,
kept separately in `hname`, and calls the handler). -/

/-- One stored subscription tuple. `hname` is `handler.__name__`. -/
structure Sub (P H : Type) where
  pattern : Option P
  priority : Int
  hname : PyStr
  handler : H
  hid : Nat
  timeout : Int
  deriving DecidableEq

/-- The subscription store of `EventBus` (`_exact` is a Python dict:
an insertion-ordered association list with unique keys). -/
structure EventBusState (P H : Type) where
  exact : List (PyStr × List (Sub P H))
  regex : List (Sub P H)

/-- The sort key of `EventBus`: `key=lambda t: (-t[1], t[2].__name__)`,
i.e. descending priority, then handler name ascending (Python compares
strings lexicographically by code point, the `List Char` order). -/
def keyLE {P H : Type} (a b : Sub P H) : Bool :=
  decide (b.priority < a.priority ∨ (a.priority = b.priority ∧ a.hname ≤ b.hname))

/-- Bucket lookup `self._exact.get(event_type, [])` /
`if prefix in self._exact`. -/
def findBucket {P H : Type} (exact : List (PyStr × List (Sub P H)))
    (t : PyStr) : List (Sub P H) :=
  ((exact.find? (fun e => decide (e.1 = t))).map Prod.snd).getD []

/-- The strict dotted prefixes consulted by `_collect_handlers`:
`".".join(parts[:i])` for `i = len(parts)-1, …, 1`. -/
def strictPrefixes (t : PyStr) : List PyStr :=
  (List.range' 1 ((splitOnDot t).length - 1)).reverse.map
    (fun i => joinDots ((splitOnDot t).take i))

/-- The unsorted union built inside `_collect_handlers`:
`exact_handlers + prefix_handlers + regex_handlers`. -/
def collectMerged {P H : Type} (pm : P → PyStr → Bool)
    (bus : EventBusState P H) (t : PyStr) : List (Sub P H) :=
  findBucket bus.exact t
    ++ (strictPrefixes t).flatMap (fun pfx => findBucket bus.exact pfx)
    ++ bus.regex.filter (fun s =>
        match s.pattern with
        | some q => pm q t
        | none => false)

/-- `EventBus._collect_handlers`: merge the exact bucket, the buckets of
all strict dotted prefixes and the matching regex subscriptions, then
stable-sort by `(-priority, handler.__name__)` (Python's `list.sort` is
a stable sort; a stable sort for a total transitive comparator is unique,
so `List.mergeSort` embeds it exactly). -/
def collectHandlers {P H : Type} (pm : P → PyStr → Bool)
    (bus : EventBusState P H) (t : PyStr) : List (Sub P H) :=
  (collectMerged pm bus t).mergeSort keyLE

/-! ### The publish loop

`NcatBotEvent` (`ncatbot/core/client/ncatbot_event.py` is not among the
sources; modelled from the spec §3): an event carries the three mutable
collaboration fields `results`, `exceptions` and `propagation_stopped`;
`add_exception` appends to `exceptions`.  Handler return values have type
`V`, handler-raised exceptions type `E`; the bus additionally records
`HandlerTimeoutError` entries carrying the handler name and its timeout.

A handler execution is abstracted as a function from the current event
state to an outcome (normal return, raised exception, or timeout) plus
the value it leaves in `propagation_stopped` — the only event field a
handler writes through the public API. -/

/-- Exception entries on an event: handler-raised exceptions plus the
`HandlerTimeoutError(meta_data, handler, time)` entries added by `publish`. -/
inductive PyExc (E : Type) where
  | user (e : E)
  | handlerTimeout (handlerName : PyStr) (limit : Int)
  deriving DecidableEq

/-- Modelled from the spec: the mutable collaboration fields of
`NcatBotEvent` (§3 of the spec; the defining file is absent from `src/`). -/
structure NcatBotEvent (V E : Type) where
  results : List V
  exceptions : List (PyExc E)
  propagationStopped : Bool

/-- What one handler invocation does: return a value, raise, or exceed
its timeout (`asyncio.TimeoutError` at the `wait_for` in `publish`). -/
inductive Outcome (V E : Type) where
  | ok (v : V)
  | raise (e : E)
  | timeout
  deriving DecidableEq

/-- A handler as the publish loop sees it: given the event, it produces
an outcome and the value it leaves in the `propagation_stopped` flag
(`true` if the handler called `stop_propagation`). -/
abbrev Handler (V E : Type) := NcatBotEvent V E → Outcome V E × Bool

/-- One iteration of the `for` body in `EventBus.publish`: run the
handler, record its flag write, then append the result on success, the
exception on failure, or a `HandlerTimeoutError` on timeout. -/
def runStep {P V E : Type} (s : Sub P (Handler V E)) (ev : NcatBotEvent V E) :
    NcatBotEvent V E :=
  let ev1 : NcatBotEvent V E :=
    { ev with propagationStopped := ev.propagationStopped || (s.handler ev).2 }
  match (s.handler ev).1 with
  | .ok v => { ev1 with results := ev1.results ++ [v] }
  | .raise e => { ev1 with exceptions := ev1.exceptions ++ [.user e] }
  | .timeout => { ev1 with exceptions := ev1.exceptions ++ [.handlerTimeout s.hname s.timeout] }

/-- The loop of `EventBus.publish`: handlers run sequentially; before
each handler the `propagation_stopped` flag is checked and dispatch stops
if it is set; exceptions never abort the loop. -/
def publishLoop {P V E : Type} :
    List (Sub P (Handler V E)) → NcatBotEvent V E → NcatBotEvent V E
  | [], ev => ev
  | s :: rest, ev =>
    if ev.propagationStopped then ev
    else publishLoop rest (runStep s ev)

/-- `EventBus.publish`: collect, loop, and return `event._results.copy()`. -/
def publish {P V E : Type} (pm : P → PyStr → Bool)
    (bus : EventBusState P (Handler V E)) (t : PyStr) (ev : NcatBotEvent V E) :
    List V :=
  (publishLoop (collectHandlers pm bus t) ev).results

/-- Ghost execution trace of the publish loop: the handlers that actually
ran, in order, each with its outcome. -/
def publishTrace {P V E : Type} :
    List (Sub P (Handler V E)) → NcatBotEvent V E →
      List (Sub P (Handler V E) × Outcome V E)
  | [], _ => []
  | s :: rest, ev =>
    if ev.propagationStopped then []
    else (s, (s.handler ev).1) :: publishTrace rest (runStep s ev)

/-- The result entry (if any) an outcome contributes. -/
def okValue {V E : Type} : Outcome V E → Option V
  | .ok v => some v
  | _ => none

/-- The exception entry (if any) an outcome contributes, for the handler
of subscription `s`. -/
def excEntry {P V E : Type} (s : Sub P (Handler V E)) :
    Outcome V E → Option (PyExc E)
  | .ok _ => none
  | .raise e => some (.user e)
  | .timeout => some (.handlerTimeout s.hname s.timeout)

/-! ### Concrete fixtures used by the witness theorems -/

/-- A regex-match predicate that matches nothing (no regex subscriptions
are exercised by the witnesses). -/
def noRegex : Unit → PyStr → Bool := fun _ _ => false

/-- A handler that returns 0 and does not stop propagation. -/
def okHandler : Handler Nat Nat := fun _ => (.ok 0, false)

def c1s1 : Sub Unit (Handler Nat Nat) := ⟨none, 1, pyS "h", okHandler, 1, 120⟩

def c1s2 : Sub Unit (Handler Nat Nat) := ⟨none, 1, pyS "h", okHandler, 2, 120⟩

def c1bus : EventBusState Unit (Handler Nat Nat) :=
  ⟨[(pyS "x", [c1s1, c1s2])], []⟩

def freshEvent : NcatBotEvent Nat Nat := ⟨[], [], false⟩

def c2s : Sub Unit Nat := ⟨none, 0, pyS "h", 0, 0, 120⟩

def c2bus : EventBusState Unit Nat := ⟨[(pyS "a.b", [c2s])], []⟩

/-- A handler that raises `7`. -/
def raiseHandler : Handler Nat Nat := fun _ => (.raise 7, false)

def c3sr : Sub Unit (Handler Nat Nat) := ⟨none, 1, pyS "f", raiseHandler, 1, 120⟩

def c3s2 : Sub Unit (Handler Nat Nat) := ⟨none, 0, pyS "g", okHandler, 2, 120⟩

def c3bus : EventBusState Unit (Handler Nat Nat) :=
  ⟨[(pyS "x", [c3sr, c3s2])], []⟩

/-! ### Service manager (`ncatbot/core/service/manager.py`)

`ServiceManager` keeps `_service_classes` (registrations) and `_services`
(loaded instances), both Python dicts, i.e. insertion-ordered maps; only
the key order matters for the ordering claims, so both are modelled as
name lists with dict semantics, together with a ghost log of the
`_load` / `_close` calls made on services. -/

/-- Ghost log entry: an awaited `service._load()` or `service._close()`. -/
inductive SMEvent where
  | load (nm : PyStr)
  | close (nm : PyStr)
  deriving DecidableEq

/-- The manager's state: registration dict keys, instance dict keys, and
the ghost effect log. -/
structure SMState where
  serviceClasses : List PyStr
  services : List PyStr
  log : List SMEvent
  deriving DecidableEq

/-- `ServiceManager.register`: `self._service_classes[name] = cls`; a dict
assignment to an existing key keeps its position. -/
def register (st : SMState) (nm : PyStr) : SMState :=
  if nm ∈ st.serviceClasses then st
  else { st with serviceClasses := st.serviceClasses ++ [nm] }

/-- `ServiceManager.load`: return the instance if already loaded,
otherwise instantiate, await `_load` and store. -/
def loadService (st : SMState) (nm : PyStr) : SMState :=
  if nm ∈ st.services then st
  else { st with services := st.services ++ [nm], log := st.log ++ [.load nm] }

/-- `ServiceManager.unload`: return if not loaded, otherwise await
`_close` and delete the instance entry. -/
def unloadService (st : SMState) (nm : PyStr) : SMState :=
  if nm ∈ st.services then
    { st with services := st.services.erase nm, log := st.log ++ [.close nm] }
  else st

/-- `ServiceManager.load_all`: `for name in self._service_classes: if name
not in self._services: await self.load(name)`. -/
def loadAll (st : SMState) : SMState :=
  st.serviceClasses.foldl
    (fun acc nm => if nm ∈ acc.services then acc else loadService acc nm) st

/-- `ServiceManager.close_all`: `for name in list(self._services.keys()):
await self.unload(name)` — the key list is snapshotted, then iterated in
dict (insertion) order. -/
def closeAll (st : SMState) : SMState :=
  st.services.foldl (fun acc nm => unloadService acc nm) st

/-- Registering a list of service classes in order. -/
def registerAll (names : List PyStr) (st : SMState) : SMState :=
  names.foldl register st

/-- The manager constructed by `__init__`. -/
def emptySM : SMState := ⟨[], [], []⟩

/-! ### Event parser (`ncatbot/core/event/parser.py`) and the id
validators of `ncatbot/core/event/events.py`

Wire payloads are JSON objects; the fields inspected here arrive as
integers, strings or are absent (Python `dict.get` yields `None`). -/

/-- A wire value as the parser inspects it. -/
inductive RawValue where
  | vint (n : Int)
  | vstr (s : PyStr)
  | vnone
  deriving DecidableEq

/-- Python truthiness for wire values (`0`, `""` and `None` are falsy). -/
def truthy : RawValue → Bool
  | .vint n => n != 0
  | .vstr s => !s.isEmpty
  | .vnone => false

/-- Python `str(v)` on a wire value. -/
def pyStrOf : RawValue → PyStr
  | .vint n => (toString n).data
  | .vstr s => s
  | .vnone => pyS "None"

/-- A JSON payload: an association of field names to wire values. -/
abbrev Payload := List (PyStr × RawValue)

/-- `data.get(key)` — absent keys yield Python `None`. -/
def pget (d : Payload) (k : PyStr) : RawValue :=
  ((d.find? (fun e => decide (e.1 = k))).map Prod.snd).getD .vnone

/-- `str(x or "")`: the empty string for falsy `x`, else `str(x)`. -/
def strOrEmpty (v : RawValue) : PyStr :=
  if truthy v then pyStrOf v else []

/-- `EventParser._get_secondary_key`: the sub-key rule keyed on
`post_type` (string-valued enums compare equal to their value strings;
a non-string `post_type` matches no branch and falls to `"default"`). -/
def getSecondaryKey (d : Payload) : PyStr :=
  let pt := pget d (pyS "post_type")
  if pt = .vstr (pyS "message") then strOrEmpty (pget d (pyS "message_type"))
  else if pt = .vstr (pyS "request") then strOrEmpty (pget d (pyS "request_type"))
  else if pt = .vstr (pyS "meta_event") then strOrEmpty (pget d (pyS "meta_event_type"))
  else if pt = .vstr (pyS "notice") then
    let n := pget d (pyS "notice_type")
    if n = .vstr (pyS "notify") then strOrEmpty (pget d (pyS "sub_type"))
    else strOrEmpty n
  else pyS "default"

/-- The shapes an identifier field of `events.py` can take.  Two
`mode="before"` validator bodies occur: `str(v)` (`force_str`,
`_force_ids`, `_gid`, `_oid`, `_mid`, `_tid`, `_uid`) and
`str(v) if v else None` (`NoticeEvent._ids`).  One field pair has *no*
active validator: `GroupRecallNoticeEvent` declares its own validator
under the attribute name `_ids` (for `operator_id` / `message_id`), and
pydantic v2 collects class validators into a dict keyed by attribute
name, so the subclass's `_ids` shadows the inherited `NoticeEvent._ids`
— on that class `group_id` / `user_id` are plain `Optional[str]` fields
with no before-coercion (`rawOptionalStr`). -/
inductive IdValidator where
  | plainStr
  | optionalFalsy
  | rawOptionalStr
  deriving DecidableEq

/-- What pydantic stores for a field, or a validation failure. -/
inductive FieldOutcome where
  | stored (v : Option PyStr)
  | invalid
  deriving DecidableEq

/-- Running a field's validation on an incoming wire value: the two
validator bodies coerce with `str`; an unvalidated `Optional[str]` field
accepts a string or `None` unchanged, and rejects an integer (pydantic
v2 lax mode does not coerce `int` to `str`), failing the event's
instantiation. -/
def applyIdValidator : IdValidator → RawValue → FieldOutcome
  | .plainStr, v => .stored (some (pyStrOf v))
  | .optionalFalsy, v => .stored (if truthy v then some (pyStrOf v) else none)
  | .rawOptionalStr, v =>
    match v with
    | .vstr s => .stored (some s)
    | .vnone => .stored none
    | .vint _ => .invalid

/-- An event variant: its class name and the identifier fields (among
`user_id`, `group_id`, `message_id`, `operator_id`, `target_id`,
`self_id`) it declares, each with its validator. -/
structure EventClass where
  clsName : PyStr
  idFields : List (PyStr × IdValidator)
  deriving DecidableEq

/-- The id fields shared by every event (`BaseEvent.force_str`). -/
def baseIds : List (PyStr × IdValidator) := [(pyS "self_id", .plainStr)]

/-- The id fields shared by every notice event: `NoticeEvent._ids`
validates the optional `group_id` / `user_id` with `str(v) if v else None`. -/
def noticeBaseIds : List (PyStr × IdValidator) :=
  baseIds ++ [(pyS "group_id", .optionalFalsy), (pyS "user_id", .optionalFalsy)]

def privateMessageEventCls : EventClass :=
  ⟨pyS "PrivateMessageEvent",
    baseIds ++ [(pyS "message_id", .plainStr), (pyS "user_id", .plainStr)]⟩

def groupMessageEventCls : EventClass :=
  ⟨pyS "GroupMessageEvent",
    baseIds ++ [(pyS "message_id", .plainStr), (pyS "user_id", .plainStr),
      (pyS "group_id", .plainStr)]⟩

def friendRequestEventCls : EventClass :=
  ⟨pyS "FriendRequestEvent", baseIds ++ [(pyS "user_id", .plainStr)]⟩

def groupRequestEventCls : EventClass :=
  ⟨pyS "GroupRequestEvent",
    baseIds ++ [(pyS "user_id", .plainStr), (pyS "group_id", .plainStr)]⟩

def lifecycleMetaEventCls : EventClass := ⟨pyS "LifecycleMetaEvent", baseIds⟩

def heartbeatMetaEventCls : EventClass := ⟨pyS "HeartbeatMetaEvent", baseIds⟩

def groupUploadNoticeEventCls : EventClass :=
  ⟨pyS "GroupUploadNoticeEvent", noticeBaseIds⟩

def groupAdminNoticeEventCls : EventClass :=
  ⟨pyS "GroupAdminNoticeEvent", noticeBaseIds⟩

def groupDecreaseNoticeEventCls : EventClass :=
  ⟨pyS "GroupDecreaseNoticeEvent", noticeBaseIds ++ [(pyS "operator_id", .plainStr)]⟩

def groupIncreaseNoticeEventCls : EventClass :=
  ⟨pyS "GroupIncreaseNoticeEvent", noticeBaseIds ++ [(pyS "operator_id", .plainStr)]⟩

def groupBanNoticeEventCls : EventClass :=
  ⟨pyS "GroupBanNoticeEvent", noticeBaseIds ++ [(pyS "operator_id", .plainStr)]⟩

def friendAddNoticeEventCls : EventClass :=
  ⟨pyS "FriendAddNoticeEvent", noticeBaseIds⟩

/-- `GroupRecallNoticeEvent`: its own `_ids` validator (plain `str` over
`operator_id` / `message_id`) shadows `NoticeEvent._ids`, leaving
`group_id` / `user_id` without a before-validator. -/
def groupRecallNoticeEventCls : EventClass :=
  ⟨pyS "GroupRecallNoticeEvent",
    baseIds ++ [(pyS "group_id", .rawOptionalStr), (pyS "user_id", .rawOptionalStr),
      (pyS "operator_id", .plainStr), (pyS "message_id", .plainStr)]⟩

def friendRecallNoticeEventCls : EventClass :=
  ⟨pyS "FriendRecallNoticeEvent", noticeBaseIds ++ [(pyS "message_id", .plainStr)]⟩

def pokeNotifyEventCls : EventClass :=
  ⟨pyS "PokeNotifyEvent", noticeBaseIds ++ [(pyS "target_id", .plainStr)]⟩

def luckyKingNotifyEventCls : EventClass :=
  ⟨pyS "LuckyKingNotifyEvent", noticeBaseIds ++ [(pyS "target_id", .plainStr)]⟩

def honorNotifyEventCls : EventClass :=
  ⟨pyS "HonorNotifyEvent", noticeBaseIds⟩

/-- `EventParser._registry` as populated by `register_builtin_events`. -/
def eventRegistry : List ((PyStr × PyStr) × EventClass) :=
  [((pyS "message", pyS "private"), privateMessageEventCls),
   ((pyS "message", pyS "group"), groupMessageEventCls),
   ((pyS "request", pyS "friend"), friendRequestEventCls),
   ((pyS "request", pyS "group"), groupRequestEventCls),
   ((pyS "meta_event", pyS "lifecycle"), lifecycleMetaEventCls),
   ((pyS "meta_event", pyS "heartbeat"), heartbeatMetaEventCls),
   ((pyS "notice", pyS "group_upload"), groupUploadNoticeEventCls),
   ((pyS "notice", pyS "group_admin"), groupAdminNoticeEventCls),
   ((pyS "notice", pyS "group_decrease"), groupDecreaseNoticeEventCls),
   ((pyS "notice", pyS "group_increase"), groupIncreaseNoticeEventCls),
   ((pyS "notice", pyS "group_ban"), groupBanNoticeEventCls),
   ((pyS "notice", pyS "friend_add"), friendAddNoticeEventCls),
   ((pyS "notice", pyS "group_recall"), groupRecallNoticeEventCls),
   ((pyS "notice", pyS "friend_recall"), friendRecallNoticeEventCls),
   ((pyS "notice", pyS "poke"), pokeNotifyEventCls),
   ((pyS "notice", pyS "lucky_king"), luckyKingNotifyEventCls),
   ((pyS "notice", pyS "honor"), honorNotifyEventCls)]

/-- The `(post_type, sec_key)` lookup of `EventParser.parse`: Python tuple
equality — a non-string `post_type` value equals no registered string. -/
def registryLookup (pt : RawValue) (sec : PyStr) : Option EventClass :=
  (eventRegistry.find? (fun e =>
    decide (RawValue.vstr e.1.1 = pt ∧ e.1.2 = sec))).map Prod.snd

/-- The exceptions `EventParser.parse` raises. -/
inductive ParseError where
  | missingPostType
  | unknownEventType (pt : RawValue) (secKey : PyStr)
  deriving DecidableEq

/-- `EventParser.parse`: reject a falsy `post_type`, look up the variant;
raise `ValueError("Unknown event type: …")` when none is registered.
(Successful pydantic instantiation and `bind_api` are elided: the field
validators are modelled separately by `applyIdValidator`, and no claim
depends on the constructed object beyond its class.) -/
def parseEvent (d : Payload) : Except ParseError (EventClass × Payload) :=
  let pt := pget d (pyS "post_type")
  if truthy pt = false then .error .missingPostType
  else
    match registryLookup pt (getSecondaryKey d) with
    | none => .error (.unknownEventType pt (getSecondaryKey d))
    | some cls => .ok (cls, d)

/-- Modelled from the spec: `EventDispatcher.dispatch`
(`ncatbot/core/client/dispatcher.py` is not among the sources).  Spec
§4.2 step 3: "If no variant is registered, emit a warning and drop —
never crash dispatch"; §9: "unknown combinations log and return `none`,
not an exception".  The dispatcher guards its call to `EventParser.parse`,
logging a warning and yielding no event when parsing rejects the payload
(the integration test `test_unknown_event_type_ignored` exercises this). -/
def dispatchPayload (d : Payload) : Option (EventClass × Payload) × List PyStr :=
  match parseEvent d with
  | .ok ev => (some ev, [])
  | .error _ => (none, [pyS "unknown event dropped"])

/-! ### Module importer (`ncatbot/plugin_system/loader/importer.py`)

`sys.modules` is a dict from dotted module names to module objects
(modelled as opaque numeric ids); `sys.path` is a list of strings. -/

/-- `sys.modules`, insertion-ordered. -/
abbrev Modules := List (PyStr × Nat)

def lookupMod (m : Modules) (k : PyStr) : Option Nat :=
  (m.find? (fun e => decide (e.1 = k))).map Prod.snd

/-- Python dict assignment: replace in place if present, else append. -/
def insertOrReplace (m : Modules) (k : PyStr) (v : Nat) : Modules :=
  if m.any (fun e => decide (e.1 = k)) then
    m.map (fun e => if e.1 = k then (k, v) else e)
  else m ++ [(k, v)]

/-- `sys.modules.pop(k, None)` / `del sys.modules[k]`. -/
def eraseKey (m : Modules) (k : PyStr) : Modules :=
  m.filter (fun e => decide (e.1 ≠ k))

/-- The process state `load_plugin_module` mutates. -/
structure PyState where
  sysModules : Modules
  sysPath : List PyStr
  deriving DecidableEq

/-- `_ModuleImporter.load_plugin_module`, from the `original_sys_path =
sys.path.copy()` snapshot onward: push the plugin path, create the
synthetic package `pkgName` if absent, register the entry module
`pkgName + "." + entryStem` (overwriting any existing entry), then
execute it; on execution failure (`execOk = false`) pop the entries this
call registered; in every case restore `sys.path` in the `finally`.
Cache invalidation and `__pycache__` removal have no effect on this
state.  `pkgObj` and `entryObj` are the fresh module objects. -/
def loadPluginModule (pkgName entryStem pluginPath : PyStr)
    (pkgObj entryObj : Nat) (execOk : Bool) (st : PyState) :
    Option Nat × PyState :=
  let original := st.sysPath
  let st1 : PyState := { st with sysPath := pluginPath :: st.sysPath }
  let moduleName := pkgName ++ '.' :: entryStem
  let createdPkg := (lookupMod st1.sysModules pkgName).isNone
  let st2 := if createdPkg then
      { st1 with sysModules := st1.sysModules ++ [(pkgName, pkgObj)] }
    else st1
  let st3 := { st2 with sysModules := insertOrReplace st2.sysModules moduleName entryObj }
  if execOk then
    (some entryObj, { st3 with sysPath := original })
  else
    let st4 := { st3 with sysModules := eraseKey st3.sysModules moduleName }
    let st5 := if createdPkg then
        { st4 with sysModules := eraseKey st4.sysModules pkgName }
      else st4
    (none, { st5 with sysPath := original })

/-! ### File watcher (`ncatbot/core/service/builtin/file_watcher/service.py`)

Paths are segment lists; a filesystem snapshot provides the `rglob("*.py")`
enumeration (with mtimes) of the scanned directory plus an existence
predicate for the deletion pass.  Wall-clock instants and the configured
delays are integers.  `runGate` is `self._paused.is_set()` (`true` means
not paused); `callbackSet` records whether a reload callback was set. -/

/-- A filesystem path as a list of `os.sep`-separated segments. -/
abbrev FPath := List PyStr

/-- Common leading-segment count (for `os.path.relpath`). -/
def commonLen : FPath → FPath → Nat
  | a :: as, b :: bs => if a = b then commonLen as bs + 1 else 0
  | _, _ => 0

/-- `os.path.relpath(f, dir).split(os.sep)` for normalised segment paths:
climb out of the uncommon part of `dir` with `".."` segments, then descend
into `f`; the relative path of a directory to itself is `["."]`. -/
def relParts (f dir : FPath) : FPath :=
  let c := commonLen f dir
  let rel := List.replicate (dir.length - c) (pyS "..") ++ f.drop c
  if rel = [] then [pyS "."] else rel

/-- The mutable scanning state of `FileWatcherService`. -/
structure WatcherState where
  fileCache : List (FPath × Int)
  pendingDirs : List PyStr
  lastProcess : Int
  firstScanDone : Bool
  runGate : Bool
  callbackSet : Bool
  deriving DecidableEq

/-- `self._pending_dirs.add(d)`. -/
def insertPending (nm : PyStr) (l : List PyStr) : List PyStr :=
  if nm ∈ l then l else l ++ [nm]

/-- `FileWatcherService.pause`: clear the gate — scanning is untouched. -/
def pauseWatcher (st : WatcherState) : WatcherState :=
  { st with runGate := false }

/-- `FileWatcherService.resume`. -/
def resumeWatcher (st : WatcherState) : WatcherState :=
  { st with runGate := true }

/-- `FileWatcherService._on_file_changed`: outside debug mode, return
immediately; otherwise mark the first-level directory of the changed file
under the watch root as pending — but only when the relative path has
more than one component. -/
def onFileChanged (debug : Bool) (f dir : FPath) (st : WatcherState) :
    WatcherState :=
  if !debug then st
  else if 1 < (relParts f dir).length then
    { st with pendingDirs :=
        insertPending ((relParts f dir).headD []) st.pendingDirs }
  else st

/-- A snapshot of the directory being scanned: the `rglob("*.py")`
enumeration with mtimes, and `os.path.exists` for the deletion pass. -/
structure FsSnapshot where
  pyFiles : List (FPath × Int)
  fileExists : FPath → Bool

/-- `"site-packages" in file_path` (the separator never occurs inside the
needle, so the substring test is a per-segment infix test). -/
def containsSitePackages (f : FPath) : Bool :=
  f.any (fun seg => decide (List.IsInfix (pyS "site-packages") seg))

def cacheLookup (c : List (FPath × Int)) (f : FPath) : Option Int :=
  (c.find? (fun e => decide (e.1 = f))).map Prod.snd

def cacheUpdate (c : List (FPath × Int)) (f : FPath) (m : Int) :
    List (FPath × Int) :=
  if c.any (fun e => decide (e.1 = f)) then
    c.map (fun e => if e.1 = f then (f, m) else e)
  else c ++ [(f, m)]

def cacheErase (c : List (FPath × Int)) (f : FPath) : List (FPath × Int) :=
  c.filter (fun e => decide (e.1 ≠ f))

/-- The per-file body of the first loop in `_scan_files`. -/
def scanStep (debug : Bool) (dir : FPath) (st : WatcherState)
    (entry : FPath × Int) : WatcherState :=
  if containsSitePackages entry.1 then st
  else
    match cacheLookup st.fileCache entry.1 with
    | none =>
      let st1 := { st with fileCache := cacheUpdate st.fileCache entry.1 entry.2 }
      if st1.firstScanDone then onFileChanged debug entry.1 dir st1 else st1
    | some old =>
      if old ≠ entry.2 then
        onFileChanged debug entry.1 dir
          { st with fileCache := cacheUpdate st.fileCache entry.1 entry.2 }
      else st

/-- The per-file body of the deletion loop in `_scan_files`. -/
def deleteStep (debug : Bool) (dir : FPath) (st : WatcherState) (f : FPath) :
    WatcherState :=
  let st1 := { st with fileCache := cacheErase st.fileCache f }
  if st1.firstScanDone then onFileChanged debug f dir st1 else st1

/-- The deletion pass of `_scan_files`: collect the cached files that no
longer exist, then process each. -/
def scanDeletePass (debug : Bool) (fs : FsSnapshot) (dir : FPath)
    (st : WatcherState) : WatcherState :=
  ((st.fileCache.filter (fun e => !fs.fileExists e.1)).map Prod.fst).foldl
    (deleteStep debug dir) st

/-- `FileWatcherService._scan_files`: walk the snapshot, record new /
changed mtimes (marking pending after the first scan), then drop cache
entries for deleted files (likewise marking pending), and finally set
`_first_scan_done`. -/
def scanFiles (debug : Bool) (fs : FsSnapshot) (dir : FPath)
    (st : WatcherState) : WatcherState :=
  { scanDeletePass debug fs dir (fs.pyFiles.foldl (scanStep debug dir) st)
      with firstScanDone := true }

/-- `FileWatcherService._process_pending` at wall-clock instant `now`:
skip while paused (pending retained); debounce; otherwise snapshot and
clear the pending set, stamp `_last_process_time`, and dispatch the
snapshot to the reload callback (skipped with a warning when no callback
is set).  Returns the new state and the directories dispatched. -/
def processPending (debounce now : Int) (st : WatcherState) :
    WatcherState × List PyStr :=
  if !st.runGate then (st, [])
  else if st.pendingDirs = [] then (st, [])
  else if now - st.lastProcess < debounce then (st, [])
  else
    let st1 := { st with pendingDirs := [], lastProcess := now }
    if !st.callbackSet then (st1, [])
    else (st1, st.pendingDirs)

/-- One iteration of `_watch_loop`: scan every (existing) watched
directory, then process pending changes. -/
def watchStep (debug : Bool) (debounce : Int)
    (dirs : List (FPath × FsSnapshot)) (now : Int) (st : WatcherState) :
    WatcherState × List PyStr :=
  processPending debounce now
    (dirs.foldl (fun acc d => scanFiles debug d.2 d.1 acc) st)

/-! ### Plugin config service (`ncatbot/core/service/builtin/plugin_config_service.py`)

Config values are drawn from an abstract type `V` with decidable
equality (Python `old_value != value`); exceptions from `E`.  A registered
`ConfigItem` carries its coercion `parse_value` and optional `on_change`
callback; the ghost `changeCalls` log records every callback invocation
and `warnings` counts the swallowed callback failures. -/

structure ConfigItem (V E : Type) where
  itemName : PyStr
  parse : V → Except E V
  onChange : Option (Option V → V → Except E Unit)

/-- The value/declaration state of `PluginConfigService`, plus the ghost
invocation log. -/
structure PCSState (V E : Type) where
  configs : List (PyStr × List (PyStr × V))
  configItems : List (PyStr × List (PyStr × ConfigItem V E))
  dirty : Bool
  changeCalls : List (PyStr × PyStr × Option V × V)
  warnings : Nat

/-- Python dict lookup `m.get(k)`. -/
def aget {V : Type} : List (PyStr × V) → PyStr → Option V
  | [], _ => none
  | e :: rest, k => if e.1 = k then some e.2 else aget rest k

/-- `self._configs.get(p, {}).get(k)`. -/
def aget2 {V : Type} (m : List (PyStr × List (PyStr × V))) (p k : PyStr) :
    Option V :=
  match aget m p with
  | some inner => aget inner k
  | none => none

/-- Python dict assignment `m[k] = v`: replace the entry in place when
the key is present (keys are unique in a dict), append otherwise. -/
def setAssoc {V : Type} : List (PyStr × V) → PyStr → V → List (PyStr × V)
  | [], k, v => [(k, v)]
  | e :: rest, k, v =>
    if e.1 = k then (k, v) :: rest else e :: setAssoc rest k v

/-- `if plugin_name not in self._configs: self._configs[plugin_name] = {}`. -/
def ensurePlugin {V E : Type} (st : PCSState V E) (plugin : PyStr) :
    PCSState V E :=
  if (aget st.configs plugin).isSome then st
  else { st with configs := st.configs ++ [(plugin, [])] }

/-- `self._configs[plugin_name][name] = value`. -/
def storeValue {V E : Type} (st : PCSState V E) (plugin key : PyStr) (v : V) :
    PCSState V E :=
  { st with configs := st.configs.map (fun e =>
      if e.1 = plugin then (plugin, setAssoc e.2 key v) else e) }

/-- `PluginConfigService.set`: ensure the plugin bucket, read the old
value, look up the declaration; if declared, coerce through `parse_value`
(raising propagates), invoke `on_change(old, new)` when one is set and the
coerced value differs (a raising callback is logged and swallowed);
finally store the value, mark dirty and return `(old, new)`. -/
def pcsSet {V E : Type} [DecidableEq V] (st : PCSState V E)
    (plugin key : PyStr) (value : V) :
    Except E (PCSState V E × (Option V × V)) :=
  let st0 := ensurePlugin st plugin
  let old := aget2 st0.configs plugin key
  match aget2 st0.configItems plugin key with
  | none =>
    .ok ({ storeValue st0 plugin key value with dirty := true }, (old, value))
  | some item =>
    match item.parse value with
    | .error e => .error e
    | .ok v2 =>
      let st1 :=
        match item.onChange with
        | some cb =>
          if old ≠ some v2 then
            let stLog := { st0 with
              changeCalls := st0.changeCalls ++ [(plugin, key, old, v2)] }
            match cb old v2 with
            | .ok _ => stLog
            | .error _ => { stLog with warnings := stLog.warnings + 1 }
          else st0
        | none => st0
      .ok ({ storeValue st1 plugin key v2 with dirty := true }, (old, v2))

/-! ### Remaining concrete fixtures for witness theorems -/

/-- An empty directory snapshot in which every path exists. -/
def fs0 : FsSnapshot := ⟨[], fun _ => true⟩

/-- A paused watcher with one pending directory. -/
def wPaused : WatcherState := ⟨[], [pyS "p"], 0, true, false, true⟩

/-- The same watcher, resumed. -/
def wResumed : WatcherState := ⟨[], [pyS "p"], 0, true, true, true⟩

/-- A watcher with nothing pending. -/
def wIdle : WatcherState := ⟨[], [], 0, true, true, true⟩

/-- A registered config item whose `on_change` callback always raises. -/
def item0 : ConfigItem Nat Nat :=
  ⟨pyS "k", fun v => .ok v, some (fun _ _ => .error 0)⟩

/-- A config state with `plug.k = 1` declared via `item0`. -/
def st00 : PCSState Nat Nat :=
  ⟨[(pyS "plug", [(pyS "k", 1)])], [(pyS "plug", [(pyS "k", item0)])],
   false, [], 0⟩

/-! ## Theorems -/

theorem splitOnDot_ne_nil (s : PyStr) : splitOnDot s ≠ [] := by
  cases s with
  | nil => simp [splitOnDot]
  | cons c rest =>
    simp only [splitOnDot]
    split <;> simp

/-- Splitting distributes over concatenation at a dot. -/
theorem splitOnDot_append (a b : PyStr) :
    splitOnDot (a ++ '.' :: b) = splitOnDot a ++ splitOnDot b := by
  induction a with
  | nil => simp [splitOnDot]
  | cons c rest ih =>
    simp only [List.cons_append, splitOnDot, List.append_eq]
    rw [ih]
    rcases h : splitOnDot rest with _ | ⟨p, ps⟩
    · exact absurd h (splitOnDot_ne_nil rest)
    · split <;> simp

/-- `".".join` is a left inverse of `split(".")`. -/
theorem joinDots_splitOnDot (s : PyStr) : joinDots (splitOnDot s) = s := by
  induction s with
  | nil => simp [splitOnDot, joinDots]
  | cons c rest ih =>
    simp only [splitOnDot]
    rcases h : splitOnDot rest with _ | ⟨p, ps⟩
    · exact absurd h (splitOnDot_ne_nil rest)
    · rw [h] at ih
      split
      · rename_i hc
        subst hc
        simpa [joinDots] using ih
      · rcases ps with _ | ⟨q, qs⟩
        · simpa [joinDots] using ih
        · simp only [List.headD_cons, List.tail_cons, joinDots, List.cons_append]
          simp only [joinDots] at ih
          rw [ih]

theorem joinDots_append (xs ys : List PyStr) (hx : xs ≠ []) (hy : ys ≠ []) :
    joinDots (xs ++ ys) = joinDots xs ++ '.' :: joinDots ys := by
  induction xs with
  | nil => exact absurd rfl hx
  | cons x xs ih =>
    rcases xs with _ | ⟨x2, xs'⟩
    · rcases ys with _ | ⟨y, ys'⟩
      · exact absurd rfl hy
      · simp [joinDots]
    · simp only [List.cons_append, joinDots, List.append_eq] at ih ⊢
      rw [ih (by simp)]
      simp [joinDots]

theorem keyLE_total {P H : Type} (a b : Sub P H) : keyLE a b || keyLE b a := by
  simp only [keyLE, Bool.or_eq_true, decide_eq_true_eq]
  rcases lt_trichotomy a.priority b.priority with h | h | h
  · exact Or.inr (Or.inl h)
  · rcases le_total a.hname b.hname with h2 | h2
    · exact Or.inl (Or.inr ⟨h, h2⟩)
    · exact Or.inr (Or.inr ⟨h.symm, h2⟩)
  · exact Or.inl (Or.inl h)

theorem keyLE_trans {P H : Type} (a b c : Sub P H) :
    keyLE a b → keyLE b c → keyLE a c := by
  simp only [keyLE, decide_eq_true_eq]
  rintro (hab | ⟨hab, hab2⟩) (hbc | ⟨hbc, hbc2⟩)
  · exact Or.inl (hbc.trans hab)
  · exact Or.inl (hbc ▸ hab)
  · exact Or.inl (hab ▸ hbc)
  · exact Or.inr ⟨hab.trans hbc, hab2.trans hbc2⟩

/-- A dotted prefix is consulted exactly for the event types that extend
it at a dot: `p ∈ strictPrefixes t ↔ t` starts with `p ++ "."`. -/
theorem mem_strictPrefixes_iff {p t : PyStr} :
    p ∈ strictPrefixes t ↔ ∃ rest, t = p ++ '.' :: rest := by
  constructor
  · intro hp
    simp only [strictPrefixes, List.mem_map, List.mem_reverse] at hp
    obtain ⟨i, hi, rfl⟩ := hp
    rw [List.mem_range'] at hi
    obtain ⟨j, hj, rfl⟩ := hi
    set parts := splitOnDot t with hparts
    have hlen : 1 + 1 * j < parts.length := by
      have hpos : 0 < parts.length := List.length_pos.mpr (splitOnDot_ne_nil t)
      omega
    refine ⟨joinDots (parts.drop (1 + 1 * j)), ?_⟩
    have htake : parts.take (1 + 1 * j) ≠ [] := by
      have hpos : 0 < (parts.take (1 + 1 * j)).length := by
        rw [List.length_take]
        omega
      exact List.length_pos.mp hpos
    have hdrop : parts.drop (1 + 1 * j) ≠ [] := by
      have hpos : 0 < (parts.drop (1 + 1 * j)).length := by
        rw [List.length_drop]
        omega
      exact List.length_pos.mp hpos
    calc t = joinDots parts := (joinDots_splitOnDot t).symm
      _ = joinDots (parts.take (1 + 1 * j) ++ parts.drop (1 + 1 * j)) := by
            rw [List.take_append_drop]
      _ = joinDots (parts.take (1 + 1 * j)) ++ '.' :: joinDots (parts.drop (1 + 1 * j)) :=
            joinDots_append _ _ htake hdrop
  · rintro ⟨rest, rfl⟩
    simp only [strictPrefixes, List.mem_map, List.mem_reverse]
    refine ⟨(splitOnDot p).length, ?_, ?_⟩
    · rw [List.mem_range']
      have h1 : 0 < (splitOnDot p).length := List.length_pos.mpr (splitOnDot_ne_nil p)
      have h2 : 0 < (splitOnDot rest).length := List.length_pos.mpr (splitOnDot_ne_nil rest)
      refine ⟨(splitOnDot p).length - 1, ?_, by omega⟩
      rw [splitOnDot_append, List.length_append]
      omega
    · rw [splitOnDot_append, List.take_left, joinDots_splitOnDot]

theorem findBucket_eq_of_mem {P H : Type} {exact : List (PyStr × List (Sub P H))}
    {q : PyStr} {b : List (Sub P H)}
    (hkeys : (exact.map Prod.fst).Nodup) (hmem : (q, b) ∈ exact) :
    findBucket exact q = b := by
  induction exact with
  | nil => simp at hmem
  | cons e rest ih =>
    simp only [List.map_cons, List.nodup_cons] at hkeys
    rcases List.mem_cons.mp hmem with heq | hmem2
    · rw [← heq]
      simp [findBucket]
    · have hne : e.1 ≠ q := by
        intro hq
        exact hkeys.1 (hq ▸ (List.mem_map.mpr ⟨(q, b), hmem2, rfl⟩))
      simpa [findBucket, List.find?_cons, hne] using ih hkeys.2 hmem2

theorem mem_findBucket {P H : Type} {exact : List (PyStr × List (Sub P H))}
    {q : PyStr} {s : Sub P H} (h : s ∈ findBucket exact q) :
    ∃ b, (q, b) ∈ exact ∧ s ∈ b := by
  unfold findBucket at h
  cases hf : exact.find? (fun e => decide (e.1 = q)) with
  | none => rw [hf] at h; simp at h
  | some e =>
    rw [hf] at h
    simp only [Option.map_some', Option.getD_some] at h
    have hmem := List.mem_of_find?_eq_some hf
    have hpred0 := List.find?_some hf
    have hpred : e.1 = q := by simpa using hpred0
    exact ⟨e.2, by rw [← hpred]; exact hmem, h⟩

theorem runStep_results {P V E : Type} (s : Sub P (Handler V E))
    (ev : NcatBotEvent V E) :
    (runStep s ev).results = ev.results ++ (okValue (s.handler ev).1).toList := by
  cases h : (s.handler ev).1 <;> simp [runStep, okValue, h]

theorem runStep_exceptions {P V E : Type} (s : Sub P (Handler V E))
    (ev : NcatBotEvent V E) :
    (runStep s ev).exceptions
      = ev.exceptions ++ (excEntry s (s.handler ev).1).toList := by
  cases h : (s.handler ev).1 <;> simp [runStep, excEntry, h]

theorem runStep_flag {P V E : Type} (s : Sub P (Handler V E))
    (ev : NcatBotEvent V E) :
    (runStep s ev).propagationStopped
      = (ev.propagationStopped || (s.handler ev).2) := by
  cases h : (s.handler ev).1 <;> simp [runStep, h]

/-- Behaviour of the publish loop when no executed handler stops
propagation: every collected handler runs, in list order; each successful
handler appends exactly one entry to `results`; each raising or timing-out
handler appends exactly one entry to `exceptions` and none to `results`. -/
theorem publishLoop_spec {P V E : Type}
    (subs : List (Sub P (Handler V E))) (ev : NcatBotEvent V E)
    (hflag : ev.propagationStopped = false)
    (hnostop : ∀ s ∈ subs, ∀ st, (s.handler st).2 = false) :
    (publishLoop subs ev).results
      = ev.results ++ (publishTrace subs ev).filterMap (fun x => okValue x.2) ∧
    (publishLoop subs ev).exceptions
      = ev.exceptions ++ (publishTrace subs ev).filterMap (fun x => excEntry x.1 x.2) ∧
    (publishTrace subs ev).map Prod.fst = subs ∧
    ∀ x ∈ publishTrace subs ev, ∃ st, x.2 = (x.1.handler st).1 := by
  induction subs generalizing ev with
  | nil => simp [publishLoop, publishTrace]
  | cons s rest ih =>
    have hs : ∀ st, (s.handler st).2 = false :=
      hnostop s (List.mem_cons_self s rest)
    have hrest : ∀ r ∈ rest, ∀ st, (r.handler st).2 = false :=
      fun r hr => hnostop r (List.mem_cons_of_mem s hr)
    have hflag2 : (runStep s ev).propagationStopped = false := by
      rw [runStep_flag, hflag, hs ev]
      rfl
    obtain ⟨h1, h2, h3, h4⟩ := ih (runStep s ev) hflag2 hrest
    have hcondF : ¬ ev.propagationStopped = true := by rw [hflag]; simp
    refine ⟨?_, ?_, ?_, ?_⟩
    · rw [publishLoop, if_neg hcondF, h1, publishTrace, if_neg hcondF,
        runStep_results]
      cases h : (s.handler ev).1 <;> simp [okValue, h]
    · rw [publishLoop, if_neg hcondF, h2, publishTrace, if_neg hcondF,
        runStep_exceptions]
      cases h : (s.handler ev).1 <;> simp [excEntry, h]
    · rw [publishTrace, if_neg hcondF, List.map_cons, h3]
    · rw [publishTrace, if_neg hcondF]
      intro x hx
      rcases List.mem_cons.mp hx with rfl | hx2
      · exact ⟨ev, rfl⟩
      · exact h4 x hx2

/-- C1: for every published event, the handlers of its dispatch set (the
exact bucket, the buckets of strict dotted prefixes, and the matching
regex subscriptions, merged) are arranged and invoked strictly in
descending priority order; handlers of equal priority are arranged in
ascending handler-name order; the sort is stable on full key ties (such
pairs keep their order from the merged list); and, when no handler stops
propagation, `publish` invokes exactly the collected handlers in that
order. -/
theorem C1_dispatch_order {P V E : Type} (pm : P → PyStr → Bool)
    (bus : EventBusState P (Handler V E)) (t : PyStr) (ev : NcatBotEvent V E) :
    (collectHandlers pm bus t).Pairwise
      (fun a b => b.priority < a.priority ∨
        (a.priority = b.priority ∧ a.hname ≤ b.hname)) ∧
    (∀ a b : Sub P (Handler V E), a.priority = b.priority → a.hname = b.hname →
      List.Sublist [a, b] (collectMerged pm bus t) →
      List.Sublist [a, b] (collectHandlers pm bus t)) ∧
    (ev.propagationStopped = false →
      (∀ s ∈ collectHandlers pm bus t, ∀ st, (s.handler st).2 = false) →
      (publishTrace (collectHandlers pm bus t) ev).map Prod.fst
        = collectHandlers pm bus t) := by
  refine ⟨?_, ?_, ?_⟩
  · have h := List.sorted_mergeSort keyLE_trans keyLE_total (collectMerged pm bus t)
    exact h.imp (fun hab => by simpa [keyLE] using hab)
  · intro a b h1 h2 hsub
    exact List.pair_sublist_mergeSort keyLE_trans keyLE_total
      (by simp [keyLE, h1, h2]) hsub
  · intro hflag hnostop
    exact (publishLoop_spec _ ev hflag hnostop).2.2.1

/-- Witness for C1: two subscriptions with equal priority and equal
handler name keep their bucket order in the dispatch set. -/
theorem C1_dispatch_order_witness :
    List.Sublist [c1s1, c1s2] (collectHandlers noRegex c1bus (pyS "x")) :=
  (C1_dispatch_order noRegex c1bus (pyS "x") freshEvent).2.1 c1s1 c1s2
    rfl rfl (List.Sublist.refl [c1s1, c1s2])

/-- C2: a handler exactly subscribed to `p` (here stored in the bucket of
key `p`, with no regex subscription matching the published type) is in the
dispatch set of an event of type `t` if and only if `t = p` or `t` starts
with `p ++ "."`. -/
theorem C2_prefix_rule {P H : Type} (pm : P → PyStr → Bool)
    (bus : EventBusState P H) (p t : PyStr) (bucket : List (Sub P H))
    (s : Sub P H)
    (hkeys : (bus.exact.map Prod.fst).Nodup)
    (hbucket : (p, bucket) ∈ bus.exact)
    (hs : s ∈ bucket)
    (honly : ∀ e ∈ bus.exact, s ∈ e.2 → e.1 = p)
    (hregex : bus.regex.filter (fun r =>
        match r.pattern with
        | some q => pm q t
        | none => false) = []) :
    s ∈ collectHandlers pm bus t ↔ (t = p ∨ ∃ rest, t = p ++ '.' :: rest) := by
  rw [collectHandlers, (List.mergeSort_perm (collectMerged pm bus t) keyLE).mem_iff,
    collectMerged, hregex]
  simp only [List.append_nil, List.mem_append, List.mem_flatMap]
  constructor
  · rintro (hmem | ⟨pfx, hpfx, hmem⟩)
    · obtain ⟨b, hb, hsb⟩ := mem_findBucket hmem
      exact Or.inl (show t = p from honly (t, b) hb hsb)
    · obtain ⟨b, hb, hsb⟩ := mem_findBucket hmem
      have : pfx = p := honly (pfx, b) hb hsb
      subst this
      exact Or.inr (mem_strictPrefixes_iff.mp hpfx)
  · rintro (rfl | hpre)
    · exact Or.inl (by rw [findBucket_eq_of_mem hkeys hbucket]; exact hs)
    · refine Or.inr ⟨p, mem_strictPrefixes_iff.mpr hpre, ?_⟩
      rw [findBucket_eq_of_mem hkeys hbucket]
      exact hs

/-- Witness for C2: the subscription on `"a.b"` is dispatched for an
event of type `"a.b.c"`. -/
theorem C2_prefix_rule_witness :
    c2s ∈ collectHandlers noRegex c2bus (pyS "a.b.c") :=
  (C2_prefix_rule noRegex c2bus (pyS "a.b") (pyS "a.b.c") [c2s] c2s
      (by decide) (by decide) (by decide) (by decide) rfl).mpr
    (Or.inr ⟨pyS "c", by decide⟩)

/-- C3: with at least two handlers in the dispatch set, none of which
stops propagation, if one of them always raises `e` (not a timeout) then:
the publish loop still runs every collected handler in order; `publish`
returns the prior results extended by exactly one entry per successfully
completed handler, in handler order, and none for raising handlers; and
the raised exception is appended to the event's exception list. -/
theorem C3_exception_isolation {P V E : Type} (pm : P → PyStr → Bool)
    (bus : EventBusState P (Handler V E)) (t : PyStr) (ev : NcatBotEvent V E)
    (pre post : List (Sub P (Handler V E))) (sr : Sub P (Handler V E)) (e : E)
    (hcollect : collectHandlers pm bus t = pre ++ sr :: post)
    (hlen : 2 ≤ (pre ++ sr :: post).length)
    (hraise : ∀ st, (sr.handler st).1 = .raise e)
    (hflag : ev.propagationStopped = false)
    (hnostop : ∀ s ∈ collectHandlers pm bus t, ∀ st, (s.handler st).2 = false) :
    publish pm bus t ev
      = ev.results
        ++ (publishTrace (collectHandlers pm bus t) ev).filterMap
            (fun x => okValue x.2) ∧
    (publishLoop (collectHandlers pm bus t) ev).exceptions
      = ev.exceptions
        ++ (publishTrace (collectHandlers pm bus t) ev).filterMap
            (fun x => excEntry x.1 x.2) ∧
    (publishTrace (collectHandlers pm bus t) ev).map Prod.fst
      = collectHandlers pm bus t ∧
    PyExc.user e ∈ (publishLoop (collectHandlers pm bus t) ev).exceptions := by
  obtain ⟨h1, h2, h3, h4⟩ :=
    publishLoop_spec (collectHandlers pm bus t) ev hflag hnostop
  refine ⟨h1, h2, h3, ?_⟩
  have hsr : sr ∈ collectHandlers pm bus t := by
    rw [hcollect]
    exact List.mem_append_right pre (List.mem_cons_self sr post)
  have hsr2 : sr ∈ (publishTrace (collectHandlers pm bus t) ev).map Prod.fst := by
    rw [h3]; exact hsr
  obtain ⟨x, hx, hxfst⟩ := List.mem_map.mp hsr2
  obtain ⟨st, hst⟩ := h4 x hx
  have hxsnd : x.2 = Outcome.raise e := by rw [hst, hxfst, hraise st]
  rw [h2]
  refine List.mem_append_right _ (List.mem_filterMap.mpr ⟨x, hx, ?_⟩)
  rw [hxsnd, hxfst]
  rfl

/-- Witness for C3: two handlers on a concrete bus, the first of which
raises `7`; the exception lands on the event. -/
theorem C3_exception_isolation_witness :
    PyExc.user 7 ∈ (publishLoop (collectHandlers noRegex c3bus (pyS "x"))
      freshEvent).exceptions := by
  have hm : collectMerged noRegex c3bus (pyS "x") = [c3sr, c3s2] := rfl
  have hc : collectHandlers noRegex c3bus (pyS "x") = [c3sr, c3s2] := by
    rw [collectHandlers, hm]
    exact List.mergeSort_of_sorted (by decide)
  have hnostop : ∀ s ∈ collectHandlers noRegex c3bus (pyS "x"),
      ∀ st, (s.handler st).2 = false := by
    intro s hsmem st
    rw [hc] at hsmem
    rcases List.mem_cons.mp hsmem with rfl | hsmem2
    · rfl
    · rcases List.mem_cons.mp hsmem2 with rfl | hsmem3
      · rfl
      · simp at hsmem3
  exact (C3_exception_isolation noRegex c3bus (pyS "x") freshEvent
    [] [c3s2] c3sr 7 hc (by decide) (fun st => rfl) rfl hnostop).2.2.2

theorem registerAll_spec : ∀ (names : List PyStr) (st : SMState),
    names.Nodup → (∀ nm ∈ names, nm ∉ st.serviceClasses) →
    registerAll names st
      = { st with serviceClasses := st.serviceClasses ++ names }
  | [], st, _, _ => by simp [registerAll]
  | nm :: rest, st, hnodup, hfresh => by
    rw [registerAll, List.foldl_cons]
    have hnm : nm ∉ st.serviceClasses := hfresh nm (List.mem_cons_self nm rest)
    rw [show register st nm
        = { st with serviceClasses := st.serviceClasses ++ [nm] } from
      if_neg hnm]
    have ih := registerAll_spec rest
      { st with serviceClasses := st.serviceClasses ++ [nm] }
      (List.nodup_cons.mp hnodup).2
      (by
        intro r hr
        simp only [List.mem_append, List.mem_singleton]
        rintro (h | rfl)
        · exact hfresh r (List.mem_cons_of_mem nm hr) h
        · exact (List.nodup_cons.mp hnodup).1 hr)
    rw [registerAll] at ih
    rw [ih]
    simp

theorem loadAll_fold_spec : ∀ (names : List PyStr) (st : SMState),
    names.Nodup → (∀ nm ∈ names, nm ∉ st.services) →
    names.foldl (fun acc nm => if nm ∈ acc.services then acc
        else loadService acc nm) st
      = { st with services := st.services ++ names,
                  log := st.log ++ names.map SMEvent.load }
  | [], st, _, _ => by simp
  | nm :: rest, st, hnodup, hfresh => by
    rw [List.foldl_cons]
    have hnm : nm ∉ st.services := hfresh nm (List.mem_cons_self nm rest)
    rw [if_neg hnm,
      show loadService st nm
        = { st with services := st.services ++ [nm],
                    log := st.log ++ [SMEvent.load nm] } from if_neg hnm]
    have ih := loadAll_fold_spec rest
      { st with services := st.services ++ [nm],
                log := st.log ++ [SMEvent.load nm] }
      (List.nodup_cons.mp hnodup).2
      (by
        intro r hr
        simp only [List.mem_append, List.mem_singleton]
        rintro (h | rfl)
        · exact hfresh r (List.mem_cons_of_mem nm hr) h
        · exact (List.nodup_cons.mp hnodup).1 hr)
    rw [ih]
    simp

theorem closeAll_fold_spec : ∀ (names : List PyStr) (st : SMState),
    st.services = names →
    names.foldl (fun acc nm => unloadService acc nm) st
      = { st with services := [], log := st.log ++ names.map SMEvent.close }
  | [], st, hsvc => by
    simp only [List.foldl_nil, List.map_nil, List.append_nil]
    cases st
    simp_all
  | nm :: rest, st, hsvc => by
    rw [List.foldl_cons]
    have hmem : nm ∈ st.services := by rw [hsvc]; exact List.mem_cons_self nm rest
    have herase : st.services.erase nm = rest := by
      rw [hsvc, List.erase_cons_head]
    rw [show unloadService st nm
        = { st with services := rest, log := st.log ++ [SMEvent.close nm] } from by
      rw [unloadService, if_pos hmem, herase]]
    have ih := closeAll_fold_spec rest
      { st with services := rest, log := st.log ++ [SMEvent.close nm] } rfl
    rw [ih]
    simp

/-- C5 counterexample: registering and loading `a` then `b`, `close_all`
closes `a` first — the same order as loading, not the reverse that the
claim states. -/
theorem C5_close_order_counterexample :
    (closeAll (loadAll (registerAll [pyS "a", pyS "b"] emptySM))).log
      = [SMEvent.load (pyS "a"), SMEvent.load (pyS "b"),
         SMEvent.close (pyS "a"), SMEvent.close (pyS "b")] ∧
    (closeAll (loadAll (registerAll [pyS "a", pyS "b"] emptySM))).log
      ≠ [SMEvent.load (pyS "a"), SMEvent.load (pyS "b"),
         SMEvent.close (pyS "b"), SMEvent.close (pyS "a")] := by
  constructor
  · rfl
  · decide

/-- C5 (amended): `load_all` loads the registered services in registration
order, and `close_all` unloads the loaded services in that same order —
the first-loaded service is closed first, not last. -/
theorem C5_load_close_order (names : List PyStr) (hnodup : names.Nodup) :
    (loadAll (registerAll names emptySM)).log = names.map SMEvent.load ∧
    (closeAll (loadAll (registerAll names emptySM))).log
      = names.map SMEvent.load ++ names.map SMEvent.close := by
  have hreg : registerAll names emptySM = ⟨names, [], []⟩ := by
    rw [registerAll_spec names emptySM hnodup (by intro nm _; simp [emptySM])]
    simp [emptySM]
  have hload : loadAll (registerAll names emptySM)
      = ⟨names, names, names.map SMEvent.load⟩ := by
    rw [hreg, loadAll]
    rw [loadAll_fold_spec names ⟨names, [], []⟩ hnodup (by intro nm _; simp)]
    simp
  have hclose : closeAll (loadAll (registerAll names emptySM))
      = ⟨names, [], names.map SMEvent.load ++ names.map SMEvent.close⟩ := by
    rw [hload, closeAll]
    rw [closeAll_fold_spec names ⟨names, names, names.map SMEvent.load⟩ rfl]
  rw [hload] at hclose ⊢
  rw [hclose]
  exact ⟨rfl, rfl⟩

/-- Witness for C5 (amended) at two concrete services. -/
theorem C5_load_close_order_witness :
    (loadAll (registerAll [pyS "a", pyS "b"] emptySM)).log
      = [pyS "a", pyS "b"].map SMEvent.load ∧
    (closeAll (loadAll (registerAll [pyS "a", pyS "b"] emptySM))).log
      = [pyS "a", pyS "b"].map SMEvent.load
        ++ [pyS "a", pyS "b"].map SMEvent.close :=
  C5_load_close_order [pyS "a", pyS "b"] (by decide)

/-- C4: a payload carrying a truthy `post_type` whose `(post_type,
sub_key)` pair has no registered variant makes `EventParser.parse` raise
`ValueError("Unknown event type: …")`, and the dispatcher — modelled from
the spec, its source file being absent — logs a warning and yields no
event (`none`) instead of letting the exception escape, so dispatch never
crashes on an unknown event. -/
theorem C4_unknown_event_dropped (d : Payload)
    (hpt : truthy (pget d (pyS "post_type")) = true)
    (hnone : registryLookup (pget d (pyS "post_type")) (getSecondaryKey d)
      = none) :
    parseEvent d
      = .error (.unknownEventType (pget d (pyS "post_type"))
          (getSecondaryKey d)) ∧
    (dispatchPayload d).1 = none ∧
    (dispatchPayload d).2 = [pyS "unknown event dropped"] := by
  have hp : parseEvent d
      = .error (.unknownEventType (pget d (pyS "post_type"))
          (getSecondaryKey d)) := by
    simp [parseEvent, hpt, hnone]
  exact ⟨hp, by simp [dispatchPayload, hp], by simp [dispatchPayload, hp]⟩

/-- Witness for C4: the payload `{"post_type": "unknown_type", "data":
"test"}` of the integration test is parsed to an error and dropped by the
dispatcher. -/
theorem C4_unknown_event_dropped_witness :
    (dispatchPayload [(pyS "post_type", RawValue.vstr (pyS "unknown_type")),
        (pyS "data", RawValue.vstr (pyS "test"))]).1 = none :=
  (C4_unknown_event_dropped
    [(pyS "post_type", RawValue.vstr (pyS "unknown_type")),
     (pyS "data", RawValue.vstr (pyS "test"))]
    (by decide) (by decide)).2.1

/-- C6 counterexample: two registered id fields fail the claim on integer
input.  `FriendAddNoticeEvent.user_id` goes through `NoticeEvent._ids`
(`str(v) if v else None`), so the integer `0` is normalised to Python
`None`, not to its string equivalent `"0"`.  And on
`GroupRecallNoticeEvent` the subclass's own `_ids` validator shadows
`NoticeEvent._ids`, so its `user_id` has no coercion at all: an integer
value fails validation instead of being carried as a string. -/
theorem C6_id_normalization_counterexample :
    ((pyS "notice", pyS "friend_add"), friendAddNoticeEventCls)
      ∈ eventRegistry ∧
    (pyS "user_id", IdValidator.optionalFalsy)
      ∈ friendAddNoticeEventCls.idFields ∧
    applyIdValidator IdValidator.optionalFalsy (RawValue.vint 0)
      = FieldOutcome.stored none ∧
    applyIdValidator IdValidator.optionalFalsy (RawValue.vint 0)
      ≠ FieldOutcome.stored (some (pyStrOf (RawValue.vint 0))) ∧
    ((pyS "notice", pyS "group_recall"), groupRecallNoticeEventCls)
      ∈ eventRegistry ∧
    (pyS "user_id", IdValidator.rawOptionalStr)
      ∈ groupRecallNoticeEventCls.idFields ∧
    applyIdValidator IdValidator.rawOptionalStr (RawValue.vint 5)
      = FieldOutcome.invalid := by
  refine ⟨by decide, by decide, rfl, by decide, by decide, by decide, rfl⟩

/-- C6 (amended): for every registered event variant and each of its
identifier fields, an integer wire value `n` is carried as the string
`str(n)` through a `str`-coercing validator — except that the optional
notice ids governed by `NoticeEvent._ids` normalise the falsy integer `0`
to Python `None`, and `group_id` / `user_id` on `GroupRecallNoticeEvent`
(where the subclass's same-named `_ids` validator shadows the parent's)
reject an integer outright, failing validation. -/
theorem C6_id_normalization (entry : (PyStr × PyStr) × EventClass)
    (hentry : entry ∈ eventRegistry)
    (fld : PyStr × IdValidator) (hfld : fld ∈ entry.2.idFields) (n : Int) :
    applyIdValidator fld.2 (RawValue.vint n)
      = match fld.2 with
        | IdValidator.plainStr => FieldOutcome.stored (some ((toString n).data))
        | IdValidator.optionalFalsy =>
            FieldOutcome.stored
              (if n = 0 then none else some ((toString n).data))
        | IdValidator.rawOptionalStr => FieldOutcome.invalid := by
  rcases hv : fld.2 with _ | _ | _
  · simp [applyIdValidator, pyStrOf]
  · by_cases hn : n = 0
    · subst hn
      simp [applyIdValidator, truthy]
    · simp [applyIdValidator, truthy, hn, pyStrOf]
  · simp [applyIdValidator]

/-- Witness for C6 (amended): the `user_id` of a `friend_add` notice
arriving as the integer `5` is stored as the string `"5"`. -/
theorem C6_id_normalization_witness :
    applyIdValidator IdValidator.optionalFalsy (RawValue.vint 5)
      = FieldOutcome.stored (some (pyS "5")) := by
  exact C6_id_normalization
    ((pyS "notice", pyS "friend_add"), friendAddNoticeEventCls) (by decide)
    (pyS "user_id", IdValidator.optionalFalsy) (by decide) 5

theorem ne_append_cons {α : Type} (l : List α) (c : α) (r : List α) :
    l ++ c :: r ≠ l := by
  intro h
  have hlen := congrArg List.length h
  simp only [List.length_append, List.length_cons] at hlen
  omega

theorem eraseKey_append (m m' : Modules) (k : PyStr) :
    eraseKey (m ++ m') k = eraseKey m k ++ eraseKey m' k :=
  List.filter_append m m'

theorem eraseKey_map_update (m : Modules) (k : PyStr) (v : Nat) :
    eraseKey (m.map (fun e => if e.1 = k then (k, v) else e)) k
      = eraseKey m k := by
  induction m with
  | nil => rfl
  | cons e rest ih =>
    simp only [List.map_cons, eraseKey, List.filter_cons, decide_not] at ih ⊢
    by_cases he : e.1 = k
    · simp [he, ih]
    · simp [he, ih]

theorem eraseKey_insertOrReplace (m : Modules) (k : PyStr) (v : Nat) :
    eraseKey (insertOrReplace m k v) k = eraseKey m k := by
  unfold insertOrReplace
  split
  · exact eraseKey_map_update m k v
  · rw [eraseKey_append]
    simp [eraseKey]

theorem lookupMod_none_forall {m : Modules} {k : PyStr}
    (h : lookupMod m k = none) : ∀ e ∈ m, e.1 ≠ k := by
  intro e he
  unfold lookupMod at h
  cases hf : m.find? (fun e => decide (e.1 = k)) with
  | some x => rw [hf] at h; simp at h
  | none =>
    have := List.find?_eq_none.mp hf e he
    simpa using this

theorem eraseKey_of_lookup_none {m : Modules} {k : PyStr}
    (h : lookupMod m k = none) : eraseKey m k = m := by
  apply List.filter_eq_self.mpr
  intro e he
  simpa using lookupMod_none_forall h e he

/-- C7 (amended): `load_plugin_module` always restores `sys.path` to its
value before the call, and on execution failure `sys.modules` equals its
prior value with the entry-module key removed: the synthetic-package
entry is removed exactly when this call created it (so the package key is
net unchanged), while any pre-existing module under the entry-module name
was overwritten at registration and is removed — not restored — by the
rollback. -/
theorem C7_importer_rollback (pkgName entryStem pluginPath : PyStr)
    (pkgObj entryObj : Nat) (execOk : Bool) (st : PyState) :
    ((loadPluginModule pkgName entryStem pluginPath pkgObj entryObj execOk
        st).2.sysPath = st.sysPath) ∧
    (execOk = false →
      (loadPluginModule pkgName entryStem pluginPath pkgObj entryObj execOk
          st).2.sysModules
        = eraseKey st.sysModules (pkgName ++ '.' :: entryStem)) := by
  constructor
  · unfold loadPluginModule
    cases execOk <;> by_cases hpkg : (lookupMod st.sysModules pkgName).isNone <;>
      simp [hpkg]
  · intro hexec
    subst hexec
    unfold loadPluginModule
    by_cases hpkg : (lookupMod st.sysModules pkgName).isNone
    · have hnone : lookupMod st.sysModules pkgName = none :=
        Option.isNone_iff_eq_none.mp hpkg
      simp only [hpkg, if_true, if_false, Bool.false_eq_true]
      rw [eraseKey_insertOrReplace, eraseKey_append]
      have hne : pkgName ≠ pkgName ++ '.' :: entryStem :=
        fun h => ne_append_cons pkgName '.' entryStem h.symm
      rw [show eraseKey [(pkgName, pkgObj)] (pkgName ++ '.' :: entryStem)
          = [(pkgName, pkgObj)] from by simp [eraseKey, hne]]
      rw [eraseKey_append]
      have hnone2 : lookupMod (eraseKey st.sysModules (pkgName ++ '.' :: entryStem))
          pkgName = none := by
        unfold lookupMod
        rw [List.find?_eq_none.mpr]
        · rfl
        · intro e he
          have he2 : e ∈ st.sysModules := List.mem_of_mem_filter he
          simpa using lookupMod_none_forall hnone e he2
      rw [eraseKey_of_lookup_none hnone2]
      simp [eraseKey]
    · simp only [hpkg, if_false, Bool.false_eq_true]
      rw [eraseKey_insertOrReplace]

/-- Witness for C7 (amended): a failing load on an empty module registry
leaves `sys.path` as it was and the registry with the entry key erased. -/
theorem C7_importer_rollback_witness :
    ((loadPluginModule (pyS "ncatbot_plugin.p") (pyS "main") (pyS "root")
        1 2 false ⟨[], [pyS "lib"]⟩).2.sysPath = [pyS "lib"]) ∧
    ((loadPluginModule (pyS "ncatbot_plugin.p") (pyS "main") (pyS "root")
        1 2 false ⟨[], [pyS "lib"]⟩).2.sysModules
      = eraseKey [] (pyS "ncatbot_plugin.p" ++ '.' :: pyS "main")) :=
  ⟨(C7_importer_rollback (pyS "ncatbot_plugin.p") (pyS "main") (pyS "root")
      1 2 false ⟨[], [pyS "lib"]⟩).1,
   (C7_importer_rollback (pyS "ncatbot_plugin.p") (pyS "main") (pyS "root")
      1 2 false ⟨[], [pyS "lib"]⟩).2 rfl⟩

/-- C7 counterexample to the claim as stated: when an entry already
exists in `sys.modules` under the entry-module name, a failing load
removes it (the call overwrote it and the rollback pops the key), so a
pre-existing entry is not left intact. -/
theorem C7_rollback_counterexample :
    lookupMod [(pyS "ncatbot_plugin.p.main", 7)] (pyS "ncatbot_plugin.p.main")
      = some 7 ∧
    lookupMod ((loadPluginModule (pyS "ncatbot_plugin.p") (pyS "main")
        (pyS "root") 1 2 false
        ⟨[(pyS "ncatbot_plugin.p.main", 7)], [pyS "lib"]⟩).2.sysModules)
      (pyS "ncatbot_plugin.p.main") = none := by
  constructor
  · rfl
  · rfl

theorem onFileChanged_pause (debug : Bool) (f dir : FPath)
    (st : WatcherState) :
    onFileChanged debug f dir (pauseWatcher st)
      = pauseWatcher (onFileChanged debug f dir st) := by
  cases st with
  | mk fc pd lp fsd rg cb =>
    unfold onFileChanged pauseWatcher
    dsimp only
    split_ifs <;> rfl

theorem scanStep_pause (debug : Bool) (dir : FPath) (st : WatcherState)
    (entry : FPath × Int) :
    scanStep debug dir (pauseWatcher st) entry
      = pauseWatcher (scanStep debug dir st entry) := by
  cases st with
  | mk fc pd lp fsd rg cb =>
    unfold scanStep pauseWatcher onFileChanged
    dsimp only
    cases h : cacheLookup fc entry.1 <;> dsimp only <;> split_ifs <;> rfl

theorem deleteStep_pause (debug : Bool) (dir : FPath) (st : WatcherState)
    (f : FPath) :
    deleteStep debug dir (pauseWatcher st) f
      = pauseWatcher (deleteStep debug dir st f) := by
  cases st with
  | mk fc pd lp fsd rg cb =>
    unfold deleteStep pauseWatcher onFileChanged
    dsimp only
    split_ifs <;> rfl

theorem foldl_pauseComm {α : Type} (f : WatcherState → α → WatcherState)
    (hf : ∀ st a, f (pauseWatcher st) a = pauseWatcher (f st a)) :
    ∀ (l : List α) (st : WatcherState),
      l.foldl f (pauseWatcher st) = pauseWatcher (l.foldl f st)
  | [], _ => rfl
  | a :: l, st => by
    rw [List.foldl_cons, List.foldl_cons, hf, foldl_pauseComm f hf l]

theorem scanDeletePass_pause (debug : Bool) (fs : FsSnapshot) (dir : FPath)
    (st : WatcherState) :
    scanDeletePass debug fs dir (pauseWatcher st)
      = pauseWatcher (scanDeletePass debug fs dir st) := by
  unfold scanDeletePass
  rw [show (pauseWatcher st).fileCache = st.fileCache from rfl]
  exact foldl_pauseComm _ (deleteStep_pause debug dir) _ st

theorem scanFiles_pause (debug : Bool) (fs : FsSnapshot) (dir : FPath)
    (st : WatcherState) :
    scanFiles debug fs dir (pauseWatcher st)
      = pauseWatcher (scanFiles debug fs dir st) := by
  unfold scanFiles
  rw [foldl_pauseComm _ (scanStep_pause debug dir) fs.pyFiles st,
    scanDeletePass_pause]
  rfl

/-- C8: while paused, `_process_pending` leaves the state untouched and
dispatches nothing; `pause` commutes with `_scan_files`, so scanning
continues and detected changes keep accumulating in the pending set while
paused; once resumed, whenever the pending set is non-empty, at least
`debounce` has elapsed since the last processing time, and a reload
callback is set, `_process_pending` snapshots and clears the pending set,
stamps the last-process time with `now`, and dispatches exactly the
snapshot to the reload callback. -/
theorem C8_pause_debounce (debug : Bool) (fs : FsSnapshot) (dir : FPath)
    (debounce now : Int) (st : WatcherState) :
    (st.runGate = false → processPending debounce now st = (st, [])) ∧
    (scanFiles debug fs dir (pauseWatcher st)
      = pauseWatcher (scanFiles debug fs dir st)) ∧
    (st.runGate = true → st.pendingDirs ≠ [] →
      debounce ≤ now - st.lastProcess → st.callbackSet = true →
      processPending debounce now st
        = ({ st with pendingDirs := [], lastProcess := now },
           st.pendingDirs)) := by
  refine ⟨?_, scanFiles_pause debug fs dir st, ?_⟩
  · intro hpause
    unfold processPending
    rw [hpause]
    rfl
  · intro hrun hpend hdeb hcb
    unfold processPending
    rw [hrun, hcb]
    rw [if_neg (by simp), if_neg hpend, if_neg (by omega), if_neg (by simp)]

/-- Witness for C8: a paused watcher with one pending directory retains
it and dispatches nothing; after resume with the debounce elapsed, the
pending set is cleared, the timestamp stamped, and the directory
dispatched. -/
theorem C8_pause_debounce_witness :
    processPending 1 10 wPaused = (wPaused, []) ∧
    processPending 1 10 wResumed
      = (⟨[], [], 10, true, true, true⟩, [pyS "p"]) :=
  ⟨(C8_pause_debounce false fs0 [] 1 10 wPaused).1 rfl,
   (C8_pause_debounce false fs0 [] 1 10 wResumed).2.2 rfl
     (by decide) (by decide) rfl⟩

theorem onFileChanged_notDebug (f dir : FPath) (st : WatcherState) :
    onFileChanged false f dir st = st := rfl

theorem scanStep_pending_notDebug (dir : FPath) (st : WatcherState)
    (entry : FPath × Int) :
    (scanStep false dir st entry).pendingDirs = st.pendingDirs := by
  unfold scanStep
  split
  · rfl
  · cases h : cacheLookup st.fileCache entry.1 with
    | none =>
      simp only [h]
      split <;> rfl
    | some old =>
      simp only [h]
      split <;> rfl

theorem deleteStep_pending_notDebug (dir : FPath) (st : WatcherState)
    (f : FPath) :
    (deleteStep false dir st f).pendingDirs = st.pendingDirs := by
  cases st with
  | mk fc pd lp fsd rg cb =>
    unfold deleteStep onFileChanged
    dsimp only
    split_ifs <;> simp_all

theorem foldl_pending_inv {α : Type} (f : WatcherState → α → WatcherState)
    (hf : ∀ st a, (f st a).pendingDirs = st.pendingDirs) :
    ∀ (l : List α) (st : WatcherState),
      (l.foldl f st).pendingDirs = st.pendingDirs
  | [], _ => rfl
  | a :: l, st => by
    rw [List.foldl_cons, foldl_pending_inv f hf l, hf]

theorem pendingDirs_setFirstScanDone (x : WatcherState) :
    ({ x with firstScanDone := true }).pendingDirs = x.pendingDirs := rfl

theorem scanFiles_pending_notDebug (fs : FsSnapshot) (dir : FPath)
    (st : WatcherState) :
    (scanFiles false fs dir st).pendingDirs = st.pendingDirs := by
  unfold scanFiles
  rw [pendingDirs_setFirstScanDone]
  unfold scanDeletePass
  rw [foldl_pending_inv _ (deleteStep_pending_notDebug dir),
    foldl_pending_inv _ (scanStep_pending_notDebug dir)]

theorem processPending_empty (debounce now : Int) (st : WatcherState)
    (h : st.pendingDirs = []) :
    processPending debounce now st = (st, []) := by
  unfold processPending
  rw [h]
  simp

theorem commonLen_self_append : ∀ (dir xs : FPath),
    commonLen (dir ++ xs) dir = dir.length
  | [], xs => by cases xs <;> rfl
  | d :: ds, xs => by
    simp [commonLen, commonLen_self_append ds xs]

theorem relParts_direct_child (dir : FPath) (fname : PyStr) :
    relParts (dir ++ [fname]) dir = [fname] := by
  unfold relParts
  rw [commonLen_self_append dir [fname]]
  simp

/-- C9: with the global debug flag off, `_on_file_changed` is a no-op, so
a full scan never touches the pending set; consequently a watch-loop
iteration starting with an empty pending set dispatches nothing to the
reload callback and ends with the pending set still empty; and — debug
mode or not — a changed file lying directly in the watch root (its
relative path has a single component) never enqueues a pending directory. -/
theorem C9_debug_gate (fs : FsSnapshot) (dirs : List (FPath × FsSnapshot))
    (dir : FPath) (fname : PyStr) (debounce now : Int) (st : WatcherState) :
    ((scanFiles false fs dir st).pendingDirs = st.pendingDirs) ∧
    (st.pendingDirs = [] →
      (watchStep false debounce dirs now st).1.pendingDirs = [] ∧
      (watchStep false debounce dirs now st).2 = []) ∧
    (∀ debug, onFileChanged debug (dir ++ [fname]) dir st = st) := by
  refine ⟨scanFiles_pending_notDebug fs dir st, ?_, ?_⟩
  · intro hpend
    have hscan := foldl_pending_inv
      (fun (acc : WatcherState) (d : FPath × FsSnapshot) =>
        scanFiles false d.2 d.1 acc)
      (fun st2 d => scanFiles_pending_notDebug d.2 d.1 st2) dirs st
    rw [hpend] at hscan
    unfold watchStep
    rw [processPending_empty debounce now _ hscan]
    exact ⟨hscan, rfl⟩
  · intro debug
    cases debug with
    | false => exact onFileChanged_notDebug _ dir st
    | true =>
      unfold onFileChanged
      rw [relParts_direct_child dir fname]
      rfl

/-- Witness for C9: a no-debug watch-loop iteration over one watched
directory dispatches nothing, and a file directly in the watch root does
not enqueue a pending directory even in debug mode. -/
theorem C9_debug_gate_witness :
    ((watchStep false 1 [([pyS "root"], fs0)] 10 wIdle).2 = []) ∧
    onFileChanged true ([pyS "root"] ++ [pyS "a.py"]) [pyS "root"] wIdle
      = wIdle :=
  ⟨((C9_debug_gate fs0 [([pyS "root"], fs0)] [pyS "root"] (pyS "a.py") 1 10
      wIdle).2.1 rfl).2,
   (C9_debug_gate fs0 [([pyS "root"], fs0)] [pyS "root"] (pyS "a.py") 1 10
      wIdle).2.2 true⟩

theorem aget_setAssoc {V : Type} (m : List (PyStr × V)) (k : PyStr) (v : V) :
    aget (setAssoc m k v) k = some v := by
  induction m with
  | nil => simp [setAssoc, aget]
  | cons e rest ih =>
    by_cases he : e.1 = k
    · simp [setAssoc, he, aget]
    · simpa [setAssoc, he, aget] using ih

theorem aget_append_none {V : Type} {m : List (PyStr × V)} {k : PyStr}
    (m' : List (PyStr × V)) (h : aget m k = none) :
    aget (m ++ m') k = aget m' k := by
  induction m with
  | nil => rfl
  | cons e rest ih =>
    by_cases he : e.1 = k
    · simp [aget, he] at h
    · simp [aget, he] at h ⊢
      exact ih h

theorem ensure_configItems {V E : Type} (st : PCSState V E) (plugin : PyStr) :
    (ensurePlugin st plugin).configItems = st.configItems := by
  unfold ensurePlugin
  split <;> rfl

theorem ensure_changeCalls {V E : Type} (st : PCSState V E) (plugin : PyStr) :
    (ensurePlugin st plugin).changeCalls = st.changeCalls := by
  unfold ensurePlugin
  split <;> rfl

theorem aget2_ensure {V E : Type} (st : PCSState V E) (plugin key : PyStr) :
    aget2 (ensurePlugin st plugin).configs plugin key
      = aget2 st.configs plugin key := by
  unfold ensurePlugin
  split
  · rfl
  · rename_i hnone
    have hfind : aget st.configs plugin = none := by
      cases hf : aget st.configs plugin with
      | none => rfl
      | some x => rw [hf] at hnone; simp at hnone
    show aget2 (st.configs ++ [(plugin, [])]) plugin key = _
    unfold aget2
    rw [aget_append_none _ hfind, hfind]
    simp [aget]

theorem aget_ensure_some {V E : Type} (st : PCSState V E) (plugin : PyStr) :
    (aget (ensurePlugin st plugin).configs plugin).isSome := by
  unfold ensurePlugin
  split
  · assumption
  · rename_i hnone
    have hfind : aget st.configs plugin = none := by
      cases hf : aget st.configs plugin with
      | none => rfl
      | some x => rw [hf] at hnone; simp at hnone
    show (aget (st.configs ++ [(plugin, [])]) plugin).isSome
    rw [aget_append_none _ hfind]
    simp [aget]

theorem aget2_map_store {V : Type} (m : List (PyStr × List (PyStr × V)))
    (plugin key : PyStr) (v : V)
    (h : (aget m plugin).isSome) :
    aget2 (m.map (fun e =>
        if e.1 = plugin then (plugin, setAssoc e.2 key v) else e)) plugin key
      = some v := by
  induction m with
  | nil => simp [aget] at h
  | cons e rest ih =>
    by_cases he : e.1 = plugin
    · simp only [List.map_cons, if_pos he, aget2, aget, if_pos rfl]
      exact aget_setAssoc e.2 key v
    · simp only [aget, he, if_false] at h
      simp only [List.map_cons, if_neg he, aget2, aget, he, if_false]
      simpa [aget2] using ih h

theorem aget2_storeValue {V E : Type} (st : PCSState V E)
    (plugin key : PyStr) (v : V)
    (h : (aget st.configs plugin).isSome) :
    aget2 (storeValue st plugin key v).configs plugin key = some v :=
  aget2_map_store st.configs plugin key v h

/-- C10: on a registered config item whose coercion succeeds, `set` stores
the coerced value and marks the store dirty in every case — even when the
`on_change` callback raises (the exception is caught and logged) — and the
callback is invoked exactly when a callback is registered and the coerced
new value differs from the old value. -/
theorem C10_on_change_semantics {V E : Type} [DecidableEq V]
    (st : PCSState V E) (plugin key : PyStr) (value v2 : V)
    (item : ConfigItem V E)
    (hitem : aget2 st.configItems plugin key = some item)
    (hparse : item.parse value = .ok v2) :
    ∃ st2, pcsSet st plugin key value
        = .ok (st2, (aget2 st.configs plugin key, v2)) ∧
      aget2 st2.configs plugin key = some v2 ∧
      st2.dirty = true ∧
      st2.changeCalls = st.changeCalls ++
        (if item.onChange.isSome ∧ aget2 st.configs plugin key ≠ some v2
         then [(plugin, key, aget2 st.configs plugin key, v2)] else []) := by
  simp only [pcsSet]
  rw [ensure_configItems, hitem]
  dsimp only
  rw [hparse]
  dsimp only
  rw [aget2_ensure]
  rcases hoc : item.onChange with _ | cb
  · dsimp only
    refine ⟨_, rfl, ?_, rfl, ?_⟩
    · exact aget2_storeValue _ plugin key v2 (aget_ensure_some st plugin)
    · show (ensurePlugin st plugin).changeCalls = _
      rw [ensure_changeCalls]
      simp
  · dsimp only
    by_cases hne : aget2 st.configs plugin key ≠ some v2
    · rw [if_pos hne]
      rcases hcb : cb (aget2 st.configs plugin key) v2 with a | a
      · dsimp only
        refine ⟨_, rfl, ?_, rfl, ?_⟩
        · exact aget2_storeValue _ plugin key v2 (aget_ensure_some st plugin)
        · show (ensurePlugin st plugin).changeCalls ++ _ = _
          rw [ensure_changeCalls]
          simp [hne]
      · dsimp only
        refine ⟨_, rfl, ?_, rfl, ?_⟩
        · exact aget2_storeValue _ plugin key v2 (aget_ensure_some st plugin)
        · show (ensurePlugin st plugin).changeCalls ++ _ = _
          rw [ensure_changeCalls]
          simp [hne]
    · rw [if_neg hne]
      refine ⟨_, rfl, ?_, rfl, ?_⟩
      · exact aget2_storeValue _ plugin key v2 (aget_ensure_some st plugin)
      · show (ensurePlugin st plugin).changeCalls = _
        rw [ensure_changeCalls]
        simp [hne]

/-- Witness for C10: a set on `plug.k` (old value `1`, new value `2`)
whose `on_change` raises still stores `2`, sets the dirty flag, and logs
exactly one callback invocation. -/
theorem C10_on_change_semantics_witness :
    ∃ st2, pcsSet st00 (pyS "plug") (pyS "k") 2
        = .ok (st2, (aget2 st00.configs (pyS "plug") (pyS "k"), 2)) ∧
      aget2 st2.configs (pyS "plug") (pyS "k") = some 2 ∧
      st2.dirty = true ∧
      st2.changeCalls = st00.changeCalls ++
        (if item0.onChange.isSome
            ∧ aget2 st00.configs (pyS "plug") (pyS "k") ≠ some 2
         then [(pyS "plug", pyS "k",
                aget2 st00.configs (pyS "plug") (pyS "k"), 2)] else []) :=
  C10_on_change_semantics st00 (pyS "plug") (pyS "k") 2 2 item0 rfl rfl

end Ncatbot
